import Mathlib

/-!
Verification development for `scrapper_san_pablo.py` (Franch96/scraping-farmacias).

The script drives a browser context to call a pharmacy e-commerce REST API
(search, product detail, anonymous cart) for every UPC in an input list and
collects one result row per UPC.  This file gives a shallow embedding of the
pure logic of the script:

* JSON scalar values are modelled by `PyVal` (the shapes the script actually
  manipulates: null, booleans, ints, floats, strings); Python floats are
  idealised as rationals.
* the utility functions `num`, `money`, `clean_digits` and the matcher
  `upc_matches` are translated directly from the source;
* the per-item control flow of `main` (search with one fallback, the
  detail/match loop, cart add, two price-read attempts, entry removal, and
  the surrounding try/except) is translated into `runItemBody`/`runItem`,
  parameterised by an `ItemEnv` that records what every external HTTP call
  returns (or the exception message it raises).  Each external call is also
  logged as a `Step`, so call counts and call order are provable facts.
* `runAll` is the loop of `main` over the input list.

Regex classes are modelled over the ASCII character ranges that the data of
this script uses (digits, dot, comma); the note at each definition explains
the correspondence.
-/

set_option autoImplicit false

namespace SanPablo

/-- JSON scalar values as the Python side sees them: `None`, `bool`, `int`,
`float` (idealised as a rational) and `str`.  These are the value shapes the
script reads out of API responses and the input list. -/
inductive PyVal where
  | none
  | bool (b : Bool)
  | int (n : Int)
  | float (q : ℚ)
  | str (s : String)
  deriving DecidableEq, Repr

/-- Python truthiness for the scalar shapes of `PyVal`. -/
def truthy : PyVal → Bool
  | .none => false
  | .bool b => b
  | .int n => decide (n ≠ 0)
  | .float q => decide (q ≠ 0)
  | .str s => decide (s ≠ "")

/-- Python `a or b` on values: `a` when `a` is truthy, else `b`. -/
def pyOr (a b : PyVal) : PyVal := if truthy a then a else b

/-- Floor of a rational as an integer, computed with integer floor division. -/
def ratFloor (q : ℚ) : ℤ := Int.fdiv q.num q.den

/-- Decimal expansion of a rational in `[0, 1)`: up to `n` fractional digits,
stopping early when the remainder is zero. -/
def fracDigits : Nat → ℚ → String
  | 0, _ => ""
  | n + 1, q =>
    if q = 0 then ""
    else
      let d := ratFloor (q * 10)
      toString d ++ fracDigits n (q * 10 - d)

/-- Rendering of a float value, modelling Python `str` on floats: sign,
integer part, a dot, and the fractional digits (`"8.0"` for a whole number).
Python renders the shortest round-tripping decimal of the binary float; since
floats are idealised as rationals here, we render (a finite stretch of) the
decimal expansion. -/
def floatStr (q : ℚ) : String :=
  let sign := if q < 0 then "-" else ""
  let a := |q|
  let i := ratFloor a
  let f := a - i
  sign ++ toString i ++ "." ++ (if f = 0 then "0" else fracDigits 17 f)

/-- Python `str` on the scalar values of `PyVal`. -/
def pyStr : PyVal → String
  | .none => "None"
  | .bool b => if b then "True" else "False"
  | .int n => toString n
  | .float q => floatStr q
  | .str s => s

/-- Python `.strip()`: drop whitespace from both ends. -/
def pyStrip (s : String) : String :=
  ⟨((s.toList.dropWhile Char.isWhitespace).reverse.dropWhile Char.isWhitespace).reverse⟩

/-- Source `clean_digits(s) = re.sub(r"\D", "", str(s or ""))`: take `s or ""`,
stringify, and keep only the digit characters.  The `\d` class is modelled as
the ASCII decimal digits, which is exact on the ASCII data this script
handles. -/
def clean_digits (v : PyVal) : String :=
  ⟨(pyStr (pyOr v (.str ""))).toList.filter Char.isDigit⟩

/-- Character class `[\d.,]` of the regex in `num` (ASCII reading, see
`clean_digits`). -/
def isNumChar (c : Char) : Bool := c.isDigit || c == '.' || c == ','

/-- Model of `re.search(r"([\d.,]+)", s)`: the first maximal run of digits,
dots and commas in `s`, or `none` when there is no such character. -/
def firstNumRun (s : String) : Option String :=
  let l := s.toList.dropWhile (fun c => !isNumChar c)
  if l.isEmpty then Option.none else some ⟨l.takeWhile isNumChar⟩

/-- Value of a list of ASCII digit characters read as a decimal numeral. -/
def digitsVal (l : List Char) : ℕ :=
  l.foldl (fun a c => 10 * a + (c.toNat - 48)) 0

/-- Model of Python `float(s)` restricted to the strings `num` can feed it
(digits and dots only, after commas are removed): the parse succeeds exactly
when `s` is nonempty, contains at least one digit, only digits and at most
one dot; otherwise `float` raises `ValueError`, modelled as `none`. -/
def pyFloatParse (s : String) : Option ℚ :=
  let cs := s.toList
  if cs.isEmpty then Option.none
  else if cs.all (fun c => c.isDigit || c == '.')
      && cs.any Char.isDigit
      && decide (cs.countP (fun c => c == '.') ≤ 1) then
    let ip := cs.takeWhile (fun c => c != '.')
    let fp := (cs.dropWhile (fun c => c != '.')).drop 1
    some ((digitsVal ip : ℚ) + (digitsVal fp : ℚ) / (10 : ℚ) ^ fp.length)
  else Option.none

/-- Python `s.replace(",", "")`. -/
def stripCommas (s : String) : String :=
  ⟨s.toList.filter (fun c => c != ',')⟩

/-- Model of `float(...)` as a fallible call: `ValueError` becomes `.error`. -/
def pyFloat (s : String) : Except String ℚ :=
  match pyFloatParse s with
  | some q => .ok q
  | Option.none => .error "ValueError"

/-- Body of the `try` block of `num`: ints and floats convert directly; any
other value is stringified, the first `[\d.,]+` run is extracted (no run
gives `None`), commas are removed and `float` is called, which may raise. -/
def numTry (x : PyVal) : Except String (Option ℚ) :=
  match x with
  | .int n => .ok (some (n : ℚ))
  | .float q => .ok (some q)
  | x =>
    match firstNumRun (pyStr x) with
    | Option.none => .ok Option.none
    | some r => (pyFloat (stripCommas r)).map some

/-- Source `num(x)`: `None` and booleans short-circuit to `None` before the
`try` block; inside it, any exception is caught and turned into `None`. -/
def num (x : PyVal) : Option ℚ :=
  match x with
  | .none => Option.none
  | .bool _ => Option.none
  | x =>
    match numTry x with
    | .ok v => v
    | .error _ => Option.none

/-- Round half up: `⌊q + 1/2⌋` computed on the numerator and denominator. -/
def ratRound (q : ℚ) : ℤ := Int.fdiv (q.num * 2 + q.den) ((q.den : ℤ) * 2)

/-- Model of `f"{v:.2f}"`: the value rounded to two decimal places. -/
def format2 (q : ℚ) : String :=
  let n := ratRound (q * 100)
  let sign := if n < 0 then "-" else ""
  let a := n.natAbs
  sign ++ toString (a / 100) ++ "." ++ (if a % 100 < 10 then "0" else "") ++ toString (a % 100)

/-- Source `money(v)`: `""` for `None`, else the two-decimal rendering.  The
source first re-applies `num` to `v`; at both call sites `v` is already the
`Option`-float output of an earlier `num`, on which `num` is the identity, so
`money` is modelled directly on `Option ℚ`. -/
def money (v : Option ℚ) : String :=
  match v with
  | Option.none => ""
  | some q => format2 q

/-- One `featureValues` element of a classification feature. -/
structure FeatureValue where
  value : PyVal
  deriving DecidableEq, Repr

/-- One `features` element of a classification. -/
structure Feature where
  featureValues : List FeatureValue
  value : PyVal
  deriving DecidableEq, Repr

/-- One `classifications` element of a product detail response. -/
structure Classification where
  features : List Feature
  deriving DecidableEq, Repr

/-- The fields of a product detail JSON that `upc_matches` and `main`
inspect: the direct identifier fields, the identifier-list fields, the
classification tree and the product name.  A missing key is `PyVal.none`
(resp. the empty list), matching `dict.get`. -/
structure DetailJson where
  gtin : PyVal
  ean : PyVal
  upc : PyVal
  sku : PyVal
  visualCode : PyVal
  eans : List PyVal
  gtins : List PyVal
  upcs : List PyVal
  classifications : List Classification
  name : PyVal
  deriving DecidableEq, Repr

/-- Source `upc_matches(detail_json, upc)`: clean the target to digits; an
empty target never matches; otherwise compare the digit-cleaned value of each
direct identifier field, each element of the identifier-list fields, and each
classification feature value (the `featureValues` entries, then the own
`value` of the feature) for equality with the target. -/
def upc_matches (d : DetailJson) (u : String) : Bool :=
  let t := clean_digits (.str u)
  if t = "" then false
  else
    ([d.gtin, d.ean, d.upc, d.sku, d.visualCode].any fun v => clean_digits v == t)
    || ([d.eans, d.gtins, d.upcs].any fun l => l.any fun v => clean_digits v == t)
    || (d.classifications.any fun cl =>
          cl.features.any fun feat =>
            (feat.featureValues.any fun fv => clean_digits fv.value == t)
            || clean_digits feat.value == t)

/-- A search hit: the `fields=products(code,name)` projection the search
endpoint is asked for. -/
structure Product where
  code : PyVal
  name : PyVal
  deriving DecidableEq, Repr

/-- The triple `get_prices` returns on success: `num`-parsed base price,
`num`-parsed total price, and the stripped product name. -/
def PriceTriple : Type := Option ℚ × Option ℚ × String

/-- One external call of the per-item body, as logged in the run trace. -/
inductive Step where
  | search (q : String)
  | detail (code : PyVal)
  | addEntry (code : PyVal)
  | getPrices
  | remove
  deriving DecidableEq, Repr

/-- What the external platform answers during the processing of one input
identifier.  `.error msg` models the call raising an exception with message
`msg` (only `Cart.remove` swallows its own exceptions in the source, so it
needs no entry here):

* `search1` — `occ.search(upc)`; `search2` — the fallback
  `occ.search(":relevance:freeText:" + upc)`; both already return `[]` on a
  non-OK response or a JSON decode failure, as in `OCC.search`.
* `detail code` — `occ.detail(code)`; `Option.none` models the falsy `{}`
  that `OCC.detail` returns on failure, `some d` a nonempty detail object.
* `addEntry code` — the `r.ok` flag of `cart.add_entry(cart_id, code)`.
* `prices1`, `prices2` — the first and second `cart.get_prices` attempt;
  `Option.none` is the `None` that `get_prices` returns on failure. -/
structure ItemEnv where
  search1 : Except String (List Product)
  search2 : Except String (List Product)
  detail : PyVal → Except String (Option DetailJson)
  addEntry : PyVal → Except String Bool
  prices1 : Except String (Option PriceTriple)
  prices2 : Except String (Option PriceTriple)

/-- One output row, keyed as in the CSV header.  The timestamp column
(`Fecha Scrapping`, wall-clock time) is outside the embedding. -/
structure Row where
  upc : String
  precioSinPromo : String
  precioConPromo : String
  nombre : String
  deriving DecidableEq, Repr

/-- The row appended when search (or the match loop) found nothing. -/
def notFoundRow (u : String) : Row := ⟨u, "-", "-", "No encontrado"⟩

/-- The row appended by the outer `except` handler. -/
def errRow (u msg : String) : Row := ⟨u, "-", "-", "Error general: " ++ msg⟩

/-- The fallback search query: `f":relevance:freeText:{upc}"`. -/
def freeTextQuery (u : String) : String := ":relevance:freeText:" ++ u

/-- Source `(detail.get("name") or picked.get("name") or "").strip()`. -/
def resolvedName (dj : DetailJson) (picked : Product) : String :=
  pyStrip (pyStr (pyOr dj.name (pyOr picked.name (.str ""))))

/-- The final success row: `money(base)`, `money(promo)` with
`promo = total if total is not None and base is not None and
total < base - 1e-9 else None`, and the cart name when nonempty. -/
def priceRow (u nm : String) (g : PriceTriple) : Row :=
  let base := g.1
  let total := g.2.1
  let name2 := g.2.2
  let nm2 := if name2 ≠ "" then name2 else nm
  let promo : Option ℚ :=
    match total, base with
    | some t, some b =>
      if t < b - (1 : ℚ) / 1000000000 then some t else Option.none
    | _, _ => Option.none
  ⟨u, money base, money promo, nm2⟩

/-- The `for pdt in products` loop of `main`: skip products with a falsy
`code`; fetch the detail of each remaining product in order; stop at the
first whose detail is truthy and `upc_matches`; an exception in a detail
call aborts the loop.  Returns the pick (with its detail) and the trace of
detail calls made. -/
def pickLoop (det : PyVal → Except String (Option DetailJson)) (u : String) :
    List Product → Except String (Option (Product × DetailJson)) × List Step
  | [] => (.ok Option.none, [])
  | p :: rest =>
    if truthy p.code then
      match det p.code with
      | .error msg => (.error msg, [.detail p.code])
      | .ok Option.none =>
        let r := pickLoop det u rest
        (r.1, .detail p.code :: r.2)
      | .ok (some dj) =>
        if upc_matches dj u then (.ok (some (p, dj)), [.detail p.code])
        else
          let r := pickLoop det u rest
          (r.1, .detail p.code :: r.2)
    else pickLoop det u rest

/-- The part of the per-item body after a product was picked: cart add
(recording a name-only row when it reports failure), then up to two price
reads (the second only when the first returns `None`), then the success or
dash row, with `cart.remove` on every non-raising path past the add. -/
def afterPick (e : ItemEnv) (u : String) (picked : Product) (dj : DetailJson)
    (t : List Step) : Except String Row × List Step :=
  let nm := resolvedName dj picked
  match e.addEntry picked.code with
  | .error msg => (.error msg, t ++ [.addEntry picked.code])
  | .ok false => (.ok ⟨u, "-", "-", nm⟩, t ++ [.addEntry picked.code])
  | .ok true =>
    match e.prices1 with
    | .error msg => (.error msg, t ++ [.addEntry picked.code, .getPrices])
    | .ok (some g) =>
      (.ok (priceRow u nm g), t ++ [.addEntry picked.code, .getPrices, .remove])
    | .ok Option.none =>
      match e.prices2 with
      | .error msg =>
        (.error msg, t ++ [.addEntry picked.code, .getPrices, .getPrices])
      | .ok (some g) =>
        (.ok (priceRow u nm g),
          t ++ [.addEntry picked.code, .getPrices, .getPrices, .remove])
      | .ok Option.none =>
        (.ok ⟨u, "-", "-", nm⟩,
          t ++ [.addEntry picked.code, .getPrices, .getPrices, .remove])

/-- The per-item body from the `products` list on: run the match loop; no
pick records `No encontrado`; otherwise continue with `afterPick`. -/
def afterSearch (e : ItemEnv) (u : String) (ps : List Product) :
    Except String Row × List Step :=
  match (pickLoop e.detail u ps).1 with
  | .error msg => (.error msg, (pickLoop e.detail u ps).2)
  | .ok Option.none => (.ok (notFoundRow u), (pickLoop e.detail u ps).2)
  | .ok (some pd) => afterPick e u pd.1 pd.2 (pickLoop e.detail u ps).2

/-- The `try` block of one iteration of the `for upc in upcs` loop:
`products = occ.search(upc) or occ.search(f":relevance:freeText:{upc}")`;
an empty result records `No encontrado`; otherwise the rest of the body
runs on the nonempty products list. -/
def runItemBody (e : ItemEnv) (u : String) : Except String Row × List Step :=
  match e.search1 with
  | .error msg => (.error msg, [.search u])
  | .ok ps1 =>
    if ps1.isEmpty then
      match e.search2 with
      | .error msg => (.error msg, [.search u, .search (freeTextQuery u)])
      | .ok ps2 =>
        if ps2.isEmpty then
          (.ok (notFoundRow u), [.search u, .search (freeTextQuery u)])
        else
          let a := afterSearch e u ps2
          (a.1, .search u :: .search (freeTextQuery u) :: a.2)
    else
      let a := afterSearch e u ps1
      (a.1, .search u :: a.2)

/-- One full iteration, `try` body plus the `except` handler that turns an
exception into an error row: exactly one row either way. -/
def runItem (e : ItemEnv) (u : String) : Row × List Step :=
  let b := runItemBody e u
  (match b.1 with
   | .ok r => r
   | .error msg => errRow u msg, b.2)

/-- The `for upc in upcs` loop of `main`: the environment is indexed by the
position of the item, and every item contributes exactly one row. -/
def runAll (env : Nat → ItemEnv) : List String → List Row
  | [] => []
  | u :: rest => (runItem (env 0) u).1 :: runAll (fun i => env (i + 1)) rest

/-- The list bound to `products` when the search stage completes without an
exception and without recording `No encontrado` is `productsUsed e` (when
the stage raises, `Option.none`). -/
def productsUsed (e : ItemEnv) : Option (List Product) :=
  match e.search1 with
  | .error _ => Option.none
  | .ok ps1 =>
    if ps1.isEmpty then
      match e.search2 with
      | .error _ => Option.none
      | .ok ps2 => some ps2
    else some ps1

/-- Step classifiers for the run trace. -/
def isSearchStep : Step → Bool
  | .search _ => true
  | _ => false

def isDetailStep : Step → Bool
  | .detail _ => true
  | _ => false

def isAddStep : Step → Bool
  | .addEntry _ => true
  | _ => false

def isPriceStep : Step → Bool
  | .getPrices => true
  | _ => false

def isRemoveStep : Step → Bool
  | .remove => true
  | _ => false

/-- Number of search calls in a trace. -/
def countSearch (t : List Step) : ℕ := t.countP isSearchStep

/-- Number of detail calls in a trace. -/
def countDetail (t : List Step) : ℕ := t.countP isDetailStep

/-- Number of cart-add calls in a trace. -/
def countAdd (t : List Step) : ℕ := t.countP isAddStep

/-- Number of price-read calls in a trace. -/
def countPrice (t : List Step) : ℕ := t.countP isPriceStep

/-- Number of entry-removal calls in a trace. -/
def countRemove (t : List Step) : ℕ := t.countP isRemoveStep

/-- Whether the trace contains an entry-removal call. -/
def hasRemove (t : List Step) : Bool := t.any isRemoveStep

/-- The queries of the search calls of a trace, in order. -/
def searchQueries : List Step → List String
  | [] => []
  | .search q :: r => q :: searchQueries r
  | _ :: r => searchQueries r

/-- A product of the search list that the match loop would accept: its code
is truthy and its detail call answers a truthy detail that `upc_matches`. -/
def productMatches (e : ItemEnv) (u : String) (p : Product) : Prop :=
  truthy p.code = true ∧
    ∃ dj, e.detail p.code = .ok (some dj) ∧ upc_matches dj u = true

/-- The run of an item reached a successful cart add: the search stage
produced `ps`, the match loop picked a product, and `add_entry` reported
success for its code. -/
def addSucceeded (e : ItemEnv) (u : String) : Prop :=
  ∃ ps pd dj, productsUsed e = some ps ∧
    (pickLoop e.detail u ps).1 = .ok (some (pd, dj)) ∧
    e.addEntry pd.code = .ok true

/-- Restatement of the claimed behavior of `num` in the own words of the claim,
for comparison with the translated `num`: None and booleans give None, ints
and floats their float value; any other value is stringified, the first run
of digits, dots and commas is taken (None when there is none), commas are
removed and the result parsed as a float (None when the parse fails). -/
def numSpec : PyVal → Option ℚ
  | .none => Option.none
  | .bool _ => Option.none
  | .int n => some (n : ℚ)
  | .float q => some q
  | x =>
    match firstNumRun (pyStr x) with
    | Option.none => Option.none
    | some r => pyFloatParse (stripCommas r)

/-- Whether `small` occurs as a contiguous substring of `big`. -/
def strContains (big small : String) : Bool :=
  (List.range (big.length + 1)).any fun i =>
    (big.toList.drop i).take small.length == small.toList

/-- Formalisation of claim C3 as stated: correspondence decided by
SUBSTRING matching of the digit-cleaned values across the same field shapes
that `upc_matches` inspects. -/
def upcMatchesSub (d : DetailJson) (u : String) : Bool :=
  let t := clean_digits (.str u)
  if t = "" then false
  else
    ([d.gtin, d.ean, d.upc, d.sku, d.visualCode].any fun v =>
        strContains (clean_digits v) t)
    || ([d.eans, d.gtins, d.upcs].any fun l => l.any fun v =>
        strContains (clean_digits v) t)
    || (d.classifications.any fun cl =>
          cl.features.any fun feat =>
            (feat.featureValues.any fun fv => strContains (clean_digits fv.value) t)
            || strContains (clean_digits feat.value) t)

/-- The direct identifier fields of a detail record. -/
def directVals (d : DetailJson) : List PyVal :=
  [d.gtin, d.ean, d.upc, d.sku, d.visualCode]

/-- The elements of the identifier-list fields of a detail record. -/
def listVals (d : DetailJson) : List PyVal := d.eans ++ d.gtins ++ d.upcs

/-- The classification feature values of a detail record: every
`featureValues` entry and the own `value` of every feature. -/
def classVals (d : DetailJson) : List PyVal :=
  (d.classifications.map fun cl =>
    (cl.features.map fun f => f.featureValues.map FeatureValue.value ++ [f.value]).flatten).flatten

/-- The amended reading of claim C3: the match step accepts exactly when the
digit-cleaned input is nonempty and EQUALS the digit-cleaned value of some
inspected field (direct fields, list elements, or classification feature
values). -/
def upcMatchesEqSpec (d : DetailJson) (u : String) : Prop :=
  clean_digits (.str u) ≠ "" ∧
    ∃ v ∈ directVals d ++ (listVals d ++ classVals d),
      clean_digits v = clean_digits (.str u)

/-- The row an item gets when the post-search stages run on products `ps`
(the `except` handler applied to the outcome of the body). -/
def afterSearchRow (e : ItemEnv) (u : String) (ps : List Product) : Row :=
  match (afterSearch e u ps).1 with
  | .ok r => r
  | .error msg => errRow u msg

/-- Detail record whose only identifier is the digit string `"12345"`. -/
def d3 : DetailJson :=
  ⟨.str "12345", .none, .none, .none, .none, [], [], [], [], .str "Producto"⟩

/-- Search hit used by the C4 scenario. -/
def p4 : Product := ⟨.str "C4", .str "NombreCuatro"⟩

/-- Detail record matching the UPC `"750"`. -/
def d4 : DetailJson :=
  ⟨.str "750", .none, .none, .none, .none, [], [], [], [], .str "NombreCuatro"⟩

/-- Environment where the add succeeds and the first price read raises. -/
def e4 : ItemEnv :=
  ⟨.ok [p4], .ok [], fun _ => .ok (some d4), fun _ => .ok true,
    .error "timeout", .ok Option.none⟩

/-- Environment where the add succeeds and both price reads return data. -/
def e4w : ItemEnv :=
  ⟨.ok [p4], .ok [], fun _ => .ok (some d4), fun _ => .ok true,
    .ok (some (some 10, some 10, "NombreCuatro")), .ok Option.none⟩

/-- Environment whose initial search raises. -/
def e5 : ItemEnv :=
  ⟨.error "boom", .ok [], fun _ => .ok Option.none, fun _ => .ok false,
    .ok Option.none, .ok Option.none⟩

/-- Position-indexed environment built from `e5`. -/
def env5 : ℕ → ItemEnv := fun _ => e5

/-- Search hit used by the C6 scenario. -/
def p6 : Product := ⟨.str "C6", .str "NombreSeis"⟩

/-- Detail record with no identifiers at all: it matches no UPC. -/
def d6 : DetailJson :=
  ⟨.none, .none, .none, .none, .none, [], [], [], [], .str "NombreSeis"⟩

/-- Environment where the initial search is empty, the fallback returns a
product, and the detail of that product matches nothing. -/
def e6 : ItemEnv :=
  ⟨.ok [], .ok [p6], fun _ => .ok (some d6), fun _ => .ok false,
    .ok Option.none, .ok Option.none⟩

/-- Search hit used by the C7/C8 scenario. -/
def p7 : Product := ⟨.str "C7", .str "NombreSiete"⟩

/-- Detail record matching the UPC `"755"`. -/
def d7 : DetailJson :=
  ⟨.str "755", .none, .none, .none, .none, [], [], [], [], .str "NombreSiete"⟩

/-- Environment where the add succeeds and both price reads return `None`. -/
def e7 : ItemEnv :=
  ⟨.ok [p7], .ok [], fun _ => .ok (some d7), fun _ => .ok true,
    .ok Option.none, .ok Option.none⟩

/-! ### Helper lemmas -/

theorem runItem_fst (e : ItemEnv) (u : String) :
    (runItem e u).1 = (match (runItemBody e u).1 with
      | .ok r => r
      | .error msg => errRow u msg) := rfl

theorem runItem_snd (e : ItemEnv) (u : String) :
    (runItem e u).2 = (runItemBody e u).2 := rfl

theorem priceRow_upc (u nm : String) (g : PriceTriple) : (priceRow u nm g).upc = u := rfl

theorem afterPick_ok_upc (e : ItemEnv) (u : String) (p : Product) (dj : DetailJson)
    (t : List Step) (r : Row) (h : (afterPick e u p dj t).1 = .ok r) : r.upc = u := by
  simp only [afterPick] at h
  split at h
  · simp at h
  · simp at h; subst h; rfl
  · split at h
    · simp at h
    · simp at h; subst h; rfl
    · split at h
      · simp at h
      · simp at h; subst h; rfl
      · simp at h; subst h; rfl

theorem afterSearch_ok_upc (e : ItemEnv) (u : String) (ps : List Product)
    (r : Row) (h : (afterSearch e u ps).1 = .ok r) : r.upc = u := by
  simp only [afterSearch] at h
  split at h
  · simp at h
  · simp at h; subst h; rfl
  · exact afterPick_ok_upc _ _ _ _ _ _ h

theorem runItemBody_ok_upc (e : ItemEnv) (u : String) (r : Row)
    (h : (runItemBody e u).1 = .ok r) : r.upc = u := by
  simp only [runItemBody] at h
  split at h
  · simp at h
  · split at h
    · split at h
      · simp at h
      · split at h
        · simp at h; subst h; rfl
        · exact afterSearch_ok_upc _ _ _ _ (by simpa using h)
    · exact afterSearch_ok_upc _ _ _ _ (by simpa using h)

theorem runItem_upc (e : ItemEnv) (u : String) : ((runItem e u).1).upc = u := by
  rw [runItem_fst]
  cases h : (runItemBody e u).1 with
  | ok r => simpa using runItemBody_ok_upc e u r h
  | error msg => rfl

/-! ### C9: the numeric parser -/

/-- C9: the numeric parser `num` is total (our `Option ℚ`-valued translation
returns a value on every `PyVal`, the internal `float` failure being caught)
and behaves as claimed: `None` and booleans give `None`, ints and floats
their float value; any other value is stringified, the first run of digits,
dots and commas is taken with commas removed and parsed as a float, and
`None` results when there is no such run or the parse fails
(`numSpec` is that description verbatim). -/
theorem c9_num_total (x : PyVal) : num x = numSpec x := by
  cases x with
  | none => rfl
  | bool b => rfl
  | int n => rfl
  | float q => rfl
  | str s =>
    simp only [num, numTry, numSpec]
    cases h : firstNumRun (pyStr (.str s)) with
    | none => simp [h]
    | some r =>
      simp only [h]
      cases hp : pyFloatParse (stripCommas r) with
      | none => simp [pyFloat, hp, Except.map]
      | some q => simp [pyFloat, hp, Except.map]

/-! ### C10: clean_digits -/

theorem clean_digits_digits (v : PyVal) :
    ∀ c ∈ (clean_digits v).toList, Char.isDigit c = true := by
  intro c hc
  have hm : c ∈ (pyStr (pyOr v (.str ""))).toList.filter Char.isDigit := hc
  exact (List.mem_filter.mp hm).2

theorem clean_digits_str_of_digits (s : String)
    (hd : ∀ c ∈ s.toList, Char.isDigit c = true) : clean_digits (.str s) = s := by
  by_cases h : s = ""
  · subst h; rfl
  · have ht : pyOr (.str s) (.str "") = .str s := by simp [pyOr, truthy, h]
    show (⟨(pyStr (pyOr (.str s) (.str ""))).toList.filter Char.isDigit⟩ : String) = s
    rw [ht]
    show (⟨s.toList.filter Char.isDigit⟩ : String) = s
    rw [List.filter_eq_self.mpr hd]
    cases s
    rfl

/-- C10: `clean_digits` always returns a string of decimal digit characters,
maps `None` to the empty string, and is idempotent. -/
theorem c10_clean_digits (v : PyVal) :
    ((clean_digits v).toList.all Char.isDigit = true)
    ∧ clean_digits (.str (clean_digits v)) = clean_digits v
    ∧ clean_digits PyVal.none = "" :=
  ⟨List.all_eq_true.mpr (clean_digits_digits v),
   clean_digits_str_of_digits _ (clean_digits_digits v), rfl⟩

/-! ### C1: one row per input identifier, in input order -/

/-- C1: a completed run produces exactly one result record per input
identifier, in input order, the i-th record carrying the i-th identifier in
its UPC field — equivalently, mapping the UPC field over the output gives
back the input list (so each per-item outcome, exception included,
contributes exactly one record). -/
theorem c1_one_row_per_input (env : ℕ → ItemEnv) (upcs : List String) :
    (runAll env upcs).map Row.upc = upcs := by
  induction upcs generalizing env with
  | nil => rfl
  | cons u rest ih => simp [runAll, runItem_upc, ih]

/-! ### C5: per-item error handling -/

/-- C5: when the body of an iteration raises with message `msg`, that
identifier is recorded as an error row (dashes in both price columns, the
error message in the name column) and the run continues with the remaining
identifiers unchanged. -/
theorem c5_per_item_error (env : ℕ → ItemEnv) (u : String) (rest : List String)
    (msg : String) (t : List Step)
    (h : runItemBody (env 0) u = (.error msg, t)) :
    runAll env (u :: rest)
      = ⟨u, "-", "-", "Error general: " ++ msg⟩ :: runAll (fun i => env (i + 1)) rest := by
  have h1 : (runItemBody (env 0) u).1 = .error msg := by rw [h]
  simp [runAll, runItem_fst, h1, errRow]

/-- Witness for C5 at a concrete environment whose initial search raises. -/
theorem c5_witness :
    runAll env5 ["7501", "7502"]
      = ⟨"7501", "-", "-", "Error general: boom"⟩ :: runAll (fun i => env5 (i + 1)) ["7502"] :=
  c5_per_item_error env5 "7501" ["7502"] "boom" [Step.search "7501"] rfl

/-! ### C3: the identifier-match step -/

/-- C3 as stated is false: `upc_matches` does not decide by substring
matching.  With a detail record whose only identifier is `"12345"` and the
input `"234"`, substring matching over the same fields accepts while the
source matcher rejects. -/
theorem c3_counterexample :
    upcMatchesSub d3 "234" = true ∧ upc_matches d3 "234" = false :=
  ⟨rfl, rfl⟩

/-- C3 amended: the identifier-match step decides by EXACT EQUALITY of the
digit-cleaned (string/number-parsed) values across the known field shapes —
direct identifier fields, identifier lists, and classification feature
values — with an empty cleaned input never matching. -/
theorem c3_match_by_equality (d : DetailJson) (u : String) :
    upc_matches d u = true ↔ upcMatchesEqSpec d u := by
  by_cases ht : clean_digits (.str u) = ""
  · simp [upc_matches, upcMatchesEqSpec, ht]
  · simp only [upc_matches, upcMatchesEqSpec, ht, if_false, if_neg ht, ne_eq,
      not_false_iff, true_and]
    simp only [Bool.or_eq_true, List.any_eq_true, beq_iff_eq, List.mem_append,
      directVals, listVals, classVals, List.mem_flatten, List.mem_map, List.mem_cons,
      List.mem_singleton, List.not_mem_nil, or_false]
    constructor
    · rintro ((⟨v, hv, he⟩ | ⟨l, hl, v, hv, he⟩) | ⟨cl, hcl, feat, hf, (⟨fv, hfv, he⟩ | he)⟩)
      · exact ⟨v, Or.inl hv, he⟩
      · refine ⟨v, Or.inr (Or.inl ?_), he⟩
        rcases hl with h | h | h
        all_goals subst h
        · exact Or.inl (Or.inl hv)
        · exact Or.inl (Or.inr hv)
        · exact Or.inr hv
      · refine ⟨fv.value, Or.inr (Or.inr ?_), he⟩
        exact ⟨_, ⟨cl, hcl, rfl⟩, List.mem_flatten.mpr
          ⟨_, List.mem_map.mpr ⟨feat, hf, rfl⟩, List.mem_append_left _ (List.mem_map.mpr ⟨fv, hfv, rfl⟩)⟩⟩
      · refine ⟨feat.value, Or.inr (Or.inr ?_), he⟩
        exact ⟨_, ⟨cl, hcl, rfl⟩, List.mem_flatten.mpr
          ⟨_, List.mem_map.mpr ⟨feat, hf, rfl⟩, List.mem_append_right _ (List.mem_singleton.mpr rfl)⟩⟩
    · rintro ⟨v, hv | hv | hv, he⟩
      · exact Or.inl (Or.inl ⟨v, hv, he⟩)
      · rcases hv with (hv | hv) | hv
        · exact Or.inl (Or.inr ⟨d.eans, Or.inl rfl, v, hv, he⟩)
        · exact Or.inl (Or.inr ⟨d.gtins, Or.inr (Or.inl rfl), v, hv, he⟩)
        · exact Or.inl (Or.inr ⟨d.upcs, Or.inr (Or.inr rfl), v, hv, he⟩)
      · rcases hv with ⟨l1, ⟨cl, hcl, rfl⟩, hv⟩
        rcases List.mem_flatten.mp hv with ⟨l2, hl2, hv2⟩
        rcases List.mem_map.mp hl2 with ⟨feat, hf, rfl⟩
        rcases List.mem_append.mp hv2 with hv3 | hv3
        · rcases List.mem_map.mp hv3 with ⟨fv, hfv, rfl⟩
          exact Or.inr ⟨cl, hcl, feat, hf, Or.inl ⟨fv, hfv, he⟩⟩
        · rw [List.mem_singleton.mp hv3] at he
          exact Or.inr ⟨cl, hcl, feat, hf, Or.inr he⟩


theorem pickLoop_detail (det : PyVal → Except String (Option DetailJson)) (u : String) :
    ∀ l : List Product, ∀ x ∈ (pickLoop det u l).2, isDetailStep x = true := by
  intro l
  induction l with
  | nil => intro x hx; simp [pickLoop] at hx
  | cons p rest ih =>
    intro x hx
    simp only [pickLoop] at hx
    split at hx
    · split at hx
      · simp at hx; subst hx; rfl
      · simp at hx
        rcases hx with h | h
        · subst h; rfl
        · exact ih x h
      · split at hx
        · simp at hx; subst hx; rfl
        · simp at hx
          rcases hx with h | h
          · subst h; rfl
          · exact ih x h
    · exact ih x hx

theorem pickLoop_length (det : PyVal → Except String (Option DetailJson)) (u : String) :
    ∀ l : List Product, (pickLoop det u l).2.length ≤ l.length := by
  intro l
  induction l with
  | nil => simp [pickLoop]
  | cons p rest ih =>
    simp only [pickLoop]
    split
    · split
      · simp
      · simpa using Nat.succ_le_succ ih
      · split
        · simp
        · simpa using Nat.succ_le_succ ih
    · exact Nat.le_succ_of_le ih

theorem pickLoop_first (det : PyVal → Except String (Option DetailJson)) (u : String) :
    ∀ (l : List Product) (pd : Product) (dj : DetailJson),
      (pickLoop det u l).1 = .ok (some (pd, dj)) →
      ∃ pre post, l = pre ++ pd :: post
        ∧ (∀ q ∈ pre, ¬ (truthy q.code = true ∧
            ∃ dj2, det q.code = .ok (some dj2) ∧ upc_matches dj2 u = true))
        ∧ truthy pd.code = true ∧ det pd.code = .ok (some dj) ∧ upc_matches dj u = true := by
  intro l
  induction l with
  | nil => intro pd dj h; simp [pickLoop] at h
  | cons p rest ih =>
    intro pd dj h
    simp only [pickLoop] at h
    by_cases hc : truthy p.code
    · rw [if_pos hc] at h
      cases hdet : det p.code with
      | error msg => rw [hdet] at h; simp at h
      | ok o =>
        cases o with
        | none =>
          rw [hdet] at h; simp at h
          obtain ⟨pre, post, hl, hpre, hm⟩ := ih pd dj h
          refine ⟨p :: pre, post, by simp [hl], ?_, hm⟩
          intro q hq
          rcases List.mem_cons.mp hq with rfl | hq2
          · rintro ⟨-, dj2, hd2, -⟩
            rw [hdet] at hd2; exact Option.noConfusion (Except.ok.inj hd2)
          · exact hpre q hq2
        | some dj2 =>
          rw [hdet] at h
          by_cases hm : upc_matches dj2 u
          · simp [hm] at h
            obtain ⟨rfl, rfl⟩ := h
            exact ⟨[], rest, rfl, by simp, hc, hdet, hm⟩
          · simp [hm] at h
            obtain ⟨pre, post, hl, hpre, hmm⟩ := ih pd dj h
            refine ⟨p :: pre, post, by simp [hl], ?_, hmm⟩
            intro q hq
            rcases List.mem_cons.mp hq with rfl | hq2
            · rintro ⟨-, dj3, hd3, hm3⟩
              rw [hdet] at hd3
              obtain rfl := Option.some.inj (Except.ok.inj hd3)
              exact hm hm3
            · exact hpre q hq2
    · rw [if_neg hc] at h
      obtain ⟨pre, post, hl, hpre, hm⟩ := ih pd dj h
      refine ⟨p :: pre, post, by simp [hl], ?_, hm⟩
      intro q hq
      rcases List.mem_cons.mp hq with rfl | hq2
      · rintro ⟨hc2, -⟩; exact hc (by simpa using hc2)
      · exact hpre q hq2

theorem pickLoop_ne_nil (det : PyVal → Except String (Option DetailJson)) (u : String)
    (l : List Product) (pd : Product) (dj : DetailJson)
    (h : (pickLoop det u l).1 = .ok (some (pd, dj))) : l ≠ [] := by
  intro hl; subst hl; simp [pickLoop] at h

theorem pickLoop_countP (det : PyVal → Except String (Option DetailJson)) (u : String)
    (l : List Product) (p : Step → Bool) (hp : ∀ x, isDetailStep x = true → p x = false) :
    ((pickLoop det u l).2).countP p = 0 :=
  List.countP_eq_zero.mpr fun x hx => by
    have hd := pickLoop_detail det u l x hx
    simp [hp x hd]

theorem afterPick_trace (e : ItemEnv) (u : String) (p : Product) (dj : DetailJson)
    (t : List Step) :
    (afterPick e u p dj t).2 = t ++ [Step.addEntry p.code]
    ∨ (afterPick e u p dj t).2 = t ++ [Step.addEntry p.code, Step.getPrices]
    ∨ (afterPick e u p dj t).2
        = t ++ [Step.addEntry p.code, Step.getPrices, Step.remove]
    ∨ (afterPick e u p dj t).2
        = t ++ [Step.addEntry p.code, Step.getPrices, Step.getPrices]
    ∨ (afterPick e u p dj t).2
        = t ++ [Step.addEntry p.code, Step.getPrices, Step.getPrices, Step.remove] := by
  simp only [afterPick]
  split
  · exact Or.inl rfl
  · exact Or.inl rfl
  · split
    · exact Or.inr (Or.inl rfl)
    · exact Or.inr (Or.inr (Or.inl rfl))
    · split
      · exact Or.inr (Or.inr (Or.inr (Or.inl rfl)))
      · exact Or.inr (Or.inr (Or.inr (Or.inr rfl)))
      · exact Or.inr (Or.inr (Or.inr (Or.inr rfl)))

theorem afterSearch_eq_afterPick (e : ItemEnv) (u : String) (ps : List Product)
    (pd : Product) (dj : DetailJson)
    (hpick : (pickLoop e.detail u ps).1 = .ok (some (pd, dj))) :
    afterSearch e u ps = afterPick e u pd dj (pickLoop e.detail u ps).2 := by
  simp only [afterSearch, hpick]

theorem runItemBody_via_products (e : ItemEnv) (u : String) (ps : List Product)
    (hps : productsUsed e = some ps) (hne : ps ≠ []) :
    (runItemBody e u).1 = (afterSearch e u ps).1
    ∧ ((runItemBody e u).2 = Step.search u :: (afterSearch e u ps).2
       ∨ (runItemBody e u).2
          = Step.search u :: Step.search (freeTextQuery u) :: (afterSearch e u ps).2) := by
  simp only [productsUsed] at hps
  cases h1 : e.search1 with
  | error msg => rw [h1] at hps; simp at hps
  | ok ps1 =>
    rw [h1] at hps
    by_cases hp1 : ps1.isEmpty
    · simp only [hp1, if_true] at hps
      cases h2 : e.search2 with
      | error msg => rw [h2] at hps; simp at hps
      | ok ps2 =>
        rw [h2] at hps
        simp at hps
        subst hps
        constructor
        · simp [runItemBody, h1, hp1, h2, hne]
        · right; simp [runItemBody, h1, hp1, h2, hne]
    · simp only [hp1, if_false] at hps
      simp at hps
      subst hps
      constructor
      · simp [runItemBody, h1, hp1]
      · left; simp [runItemBody, h1, hp1]

theorem runItem_trace_cases (e : ItemEnv) (u : String) :
    (runItem e u).2 = [Step.search u]
    ∨ (runItem e u).2 = [Step.search u, Step.search (freeTextQuery u)]
    ∨ (∃ ps, productsUsed e = some ps
        ∧ (runItem e u).2 = Step.search u :: (afterSearch e u ps).2)
    ∨ (∃ ps, productsUsed e = some ps
        ∧ (runItem e u).2
            = Step.search u :: Step.search (freeTextQuery u) :: (afterSearch e u ps).2) := by
  rw [runItem_snd]
  cases h1 : e.search1 with
  | error msg => left; simp [runItemBody, h1]
  | ok ps1 =>
    by_cases hp1 : ps1.isEmpty
    · cases h2 : e.search2 with
      | error msg => right; left; simp [runItemBody, h1, hp1, h2]
      | ok ps2 =>
        by_cases hp2 : ps2.isEmpty
        · right; left; simp [runItemBody, h1, hp1, h2, hp2]
        · right; right; right
          exact ⟨ps2, by simp [productsUsed, h1, hp1, h2],
            by simp [runItemBody, h1, hp1, h2, hp2]⟩
    · right; right; left
      exact ⟨ps1, by simp [productsUsed, h1, hp1],
        by simp [runItemBody, h1, hp1]⟩

theorem afterSearch_counts (e : ItemEnv) (u : String) (ps : List Product) :
    countSearch (afterSearch e u ps).2 = 0
    ∧ countDetail (afterSearch e u ps).2 ≤ ps.length
    ∧ countAdd (afterSearch e u ps).2 ≤ 1
    ∧ countPrice (afterSearch e u ps).2 ≤ 2
    ∧ countRemove (afterSearch e u ps).2 ≤ 1 := by
  have hS : (pickLoop e.detail u ps).2.countP isSearchStep = 0 :=
    pickLoop_countP _ _ _ _ (fun x h => by cases x <;> simp_all [isDetailStep, isSearchStep])
  have hA : (pickLoop e.detail u ps).2.countP isAddStep = 0 :=
    pickLoop_countP _ _ _ _ (fun x h => by cases x <;> simp_all [isDetailStep, isAddStep])
  have hP : (pickLoop e.detail u ps).2.countP isPriceStep = 0 :=
    pickLoop_countP _ _ _ _ (fun x h => by cases x <;> simp_all [isDetailStep, isPriceStep])
  have hR : (pickLoop e.detail u ps).2.countP isRemoveStep = 0 :=
    pickLoop_countP _ _ _ _ (fun x h => by cases x <;> simp_all [isDetailStep, isRemoveStep])
  have hD : (pickLoop e.detail u ps).2.countP isDetailStep ≤ ps.length :=
    le_trans (List.countP_le_length _) (pickLoop_length e.detail u ps)
  simp only [countSearch, countDetail, countAdd, countPrice, countRemove]
  simp only [afterSearch]
  cases hpk : (pickLoop e.detail u ps).1 with
  | error msg => exact ⟨hS, hD, by simp [hA], by simp [hP], by simp [hR]⟩
  | ok o =>
    cases o with
    | none => exact ⟨hS, hD, by simp [hA], by simp [hP], by simp [hR]⟩
    | some pd =>
      rcases afterPick_trace e u pd.1 pd.2 (pickLoop e.detail u ps).2 with h | h | h | h | h <;>
        rw [h] <;>
        refine ⟨?_, ?_, ?_, ?_, ?_⟩ <;>
        simp [List.countP_append, List.countP_cons, List.countP_nil, isSearchStep,
          isDetailStep, isAddStep, isPriceStep, isRemoveStep, hS, hA, hP, hR] <;>
        omega

theorem productsUsed_length (e : ItemEnv)
    (h1 : ∀ ps, e.search1 = .ok ps → ps.length ≤ 24)
    (h2 : ∀ ps, e.search2 = .ok ps → ps.length ≤ 24)
    (ps : List Product) (hps : productsUsed e = some ps) : ps.length ≤ 24 := by
  simp only [productsUsed] at hps
  cases hs1 : e.search1 with
  | error msg => rw [hs1] at hps; simp at hps
  | ok ps1 =>
    rw [hs1] at hps
    by_cases hp1 : ps1.isEmpty
    · simp only [hp1, if_true] at hps
      cases hs2 : e.search2 with
      | error msg => rw [hs2] at hps; simp at hps
      | ok ps2 =>
        rw [hs2] at hps
        simp at hps
        subst hps
        exact h2 _ hs2
    · simp only [hp1, if_false] at hps
      simp at hps
      subst hps
      exact h1 _ hs1

/-- C8: the number of platform API calls per input identifier is bounded:
at most 2 search calls and, when the platform honours the requested page
size of 24 (both search responses have at most 24 products), at most 24
detail-fetch calls; at most 1 cart-add, at most 2 price-read and at most 1
entry-removal call, unconditionally. -/
theorem c8_call_bounds (e : ItemEnv) (u : String)
    (h1 : ∀ ps, e.search1 = .ok ps → ps.length ≤ 24)
    (h2 : ∀ ps, e.search2 = .ok ps → ps.length ≤ 24) :
    countSearch (runItem e u).2 ≤ 2 ∧ countDetail (runItem e u).2 ≤ 24
    ∧ countAdd (runItem e u).2 ≤ 1 ∧ countPrice (runItem e u).2 ≤ 2
    ∧ countRemove (runItem e u).2 ≤ 1 := by
  rcases runItem_trace_cases e u with h | h | ⟨ps, hps, h⟩ | ⟨ps, hps, h⟩ <;> rw [h]
  · refine ⟨?_, ?_, ?_, ?_, ?_⟩ <;>
      simp [countSearch, countDetail, countAdd, countPrice, countRemove,
        List.countP_cons, isSearchStep, isDetailStep, isAddStep, isPriceStep, isRemoveStep]
  · refine ⟨?_, ?_, ?_, ?_, ?_⟩ <;>
      simp [countSearch, countDetail, countAdd, countPrice, countRemove,
        List.countP_cons, isSearchStep, isDetailStep, isAddStep, isPriceStep, isRemoveStep]
  · obtain ⟨cS, cD, cA, cP, cR⟩ := afterSearch_counts e u ps
    have hlen := productsUsed_length e h1 h2 ps hps
    simp only [countSearch, countDetail, countAdd, countPrice, countRemove] at cS cD cA cP cR ⊢
    refine ⟨?_, ?_, ?_, ?_, ?_⟩ <;>
      simp [List.countP_cons, isSearchStep, isDetailStep, isAddStep, isPriceStep,
        isRemoveStep, cS] <;>
      omega
  · obtain ⟨cS, cD, cA, cP, cR⟩ := afterSearch_counts e u ps
    have hlen := productsUsed_length e h1 h2 ps hps
    simp only [countSearch, countDetail, countAdd, countPrice, countRemove] at cS cD cA cP cR ⊢
    refine ⟨?_, ?_, ?_, ?_, ?_⟩ <;>
      simp [List.countP_cons, isSearchStep, isDetailStep, isAddStep, isPriceStep,
        isRemoveStep, cS] <;>
      omega

/-- Witness for C8: the bounds hold at the concrete environment `e7`. -/
theorem c8_witness :
    countSearch (runItem e7 "755").2 ≤ 2 ∧ countDetail (runItem e7 "755").2 ≤ 24
    ∧ countAdd (runItem e7 "755").2 ≤ 1 ∧ countPrice (runItem e7 "755").2 ≤ 2
    ∧ countRemove (runItem e7 "755").2 ≤ 1 :=
  c8_call_bounds e7 "755"
    (fun ps h => by injection h with h2; rw [← h2]; decide)
    (fun ps h => by injection h with h2; rw [← h2]; decide)

theorem afterPick_price1 (e : ItemEnv) (u : String) (p : Product) (dj : DetailJson)
    (t : List Step) (g : PriceTriple) (hg : e.prices1 = .ok (some g)) :
    countPrice (afterPick e u p dj t).2 ≤ countPrice t + 1 := by
  simp only [countPrice, afterPick]
  split
  · simp [List.countP_append, List.countP_cons, isPriceStep]
  · simp [List.countP_append, List.countP_cons, isPriceStep]
  · rw [hg]
    simp [List.countP_append, List.countP_cons, isPriceStep]

theorem afterSearch_price1 (e : ItemEnv) (u : String) (ps : List Product)
    (g : PriceTriple) (hg : e.prices1 = .ok (some g)) :
    countPrice (afterSearch e u ps).2 ≤ 1 := by
  have hP : (pickLoop e.detail u ps).2.countP isPriceStep = 0 :=
    pickLoop_countP _ _ _ _ (fun x h => by cases x <;> simp_all [isDetailStep, isPriceStep])
  simp only [afterSearch]
  cases hpk : (pickLoop e.detail u ps).1 with
  | error msg => simp [countPrice, hP]
  | ok o =>
    cases o with
    | none => simp [countPrice, hP]
    | some pd =>
      have hle := afterPick_price1 e u pd.1 pd.2 (pickLoop e.detail u ps).2 g hg
      simp only [countPrice] at hle ⊢
      omega

theorem afterPick_all_fail (e : ItemEnv) (u : String) (p : Product) (dj : DetailJson)
    (t : List Step) (hadd : e.addEntry p.code = .ok true)
    (h1 : e.prices1 = .ok Option.none) (h2 : e.prices2 = .ok Option.none) :
    afterPick e u p dj t
      = (.ok ⟨u, "-", "-", resolvedName dj p⟩,
         t ++ [Step.addEntry p.code, Step.getPrices, Step.getPrices, Step.remove]) := by
  simp only [afterPick, hadd, h1, h2]

/-- C7: the cart price read is attempted at most twice per item, the second
attempt happening only when the first returns nothing; and when both
attempts return nothing the item is recorded with dashes in both price
columns while keeping the name resolved from the detail/search step, and
the cart entry is removed. -/
theorem c7_price_retry (e : ItemEnv) (u : String) :
    countPrice (runItem e u).2 ≤ 2
    ∧ (∀ g, e.prices1 = .ok (some g) → countPrice (runItem e u).2 ≤ 1)
    ∧ (∀ ps pd dj, productsUsed e = some ps →
        (pickLoop e.detail u ps).1 = .ok (some (pd, dj)) →
        e.addEntry pd.code = .ok true →
        e.prices1 = .ok Option.none → e.prices2 = .ok Option.none →
        (runItem e u).1 = ⟨u, "-", "-", resolvedName dj pd⟩
        ∧ countPrice (runItem e u).2 = 2
        ∧ hasRemove (runItem e u).2 = true) := by
  refine ⟨?_, ?_, ?_⟩
  · rcases runItem_trace_cases e u with h | h | ⟨ps, hps, h⟩ | ⟨ps, hps, h⟩ <;> rw [h]
    · simp [countPrice, List.countP_cons, isPriceStep]
    · simp [countPrice, List.countP_cons, isPriceStep]
    · have hle := (afterSearch_counts e u ps).2.2.2.1
      simp only [countPrice] at hle ⊢
      simp [List.countP_cons, isPriceStep]
      omega
    · have hle := (afterSearch_counts e u ps).2.2.2.1
      simp only [countPrice] at hle ⊢
      simp [List.countP_cons, isPriceStep]
      omega
  · intro g hg
    rcases runItem_trace_cases e u with h | h | ⟨ps, hps, h⟩ | ⟨ps, hps, h⟩ <;> rw [h]
    · simp [countPrice, List.countP_cons, isPriceStep]
    · simp [countPrice, List.countP_cons, isPriceStep]
    · have hle := afterSearch_price1 e u ps g hg
      simp only [countPrice] at hle ⊢
      simp [List.countP_cons, isPriceStep]
      omega
    · have hle := afterSearch_price1 e u ps g hg
      simp only [countPrice] at hle ⊢
      simp [List.countP_cons, isPriceStep]
      omega
  · intro ps pd dj hps hpick hadd h1 h2
    have hne := pickLoop_ne_nil e.detail u ps pd dj hpick
    obtain ⟨hb1, hb2⟩ := runItemBody_via_products e u ps hps hne
    have hAS := afterSearch_eq_afterPick e u ps pd dj hpick
    have hAP := afterPick_all_fail e u pd dj (pickLoop e.detail u ps).2 hadd h1 h2
    have hP0 : (pickLoop e.detail u ps).2.countP isPriceStep = 0 :=
      pickLoop_countP _ _ _ _ (fun x h => by cases x <;> simp_all [isDetailStep, isPriceStep])
    refine ⟨?_, ?_, ?_⟩
    · rw [runItem_fst, hb1, hAS, hAP]
    · rw [runItem_snd]
      rcases hb2 with hb | hb <;> rw [hb, hAS, hAP] <;>
        simp [countPrice, List.countP_cons, List.countP_append, isPriceStep, hP0]
    · rw [runItem_snd]
      rcases hb2 with hb | hb <;> rw [hb, hAS, hAP] <;>
        simp [hasRemove, List.any_cons, List.any_append, isRemoveStep]

/-- Witness for C7 at the concrete environment `e7`, where both price reads
return nothing: dashes in the price columns, the resolved name kept, two
price calls, and the entry removed. -/
theorem c7_witness :
    (runItem e7 "755").1 = ⟨"755", "-", "-", "NombreSiete"⟩
    ∧ countPrice (runItem e7 "755").2 = 2
    ∧ hasRemove (runItem e7 "755").2 = true :=
  (c7_price_retry e7 "755").2.2 [p7] p7 d7 rfl rfl rfl rfl rfl

theorem afterPick_ends_remove (e : ItemEnv) (u : String) (p : Product) (dj : DetailJson)
    (t : List Step) (hadd : e.addEntry p.code = .ok true)
    (h1 : ∀ msg, e.prices1 ≠ .error msg) (h2 : ∀ msg, e.prices2 ≠ .error msg) :
    ∃ t2, (afterPick e u p dj t).2 = t2 ++ [Step.remove] := by
  simp only [afterPick, hadd]
  cases hp1 : e.prices1 with
  | error msg => exact absurd hp1 (h1 msg)
  | ok o1 =>
    cases o1 with
    | some g => exact ⟨t ++ [Step.addEntry p.code, Step.getPrices], by simp⟩
    | none =>
      cases hp2 : e.prices2 with
      | error msg => exact absurd hp2 (h2 msg)
      | ok o2 =>
        cases o2 with
        | some g =>
          exact ⟨t ++ [Step.addEntry p.code, Step.getPrices, Step.getPrices], by simp⟩
        | none =>
          exact ⟨t ++ [Step.addEntry p.code, Step.getPrices, Step.getPrices], by simp⟩

/-- C4 as stated is false: at the concrete environment `e4` the product is
added to the cart (the add call succeeds) but the iteration raises during
the first price read, and no entry-removal call is ever made, so the entry
survives into the next iteration. -/
theorem c4_counterexample :
    e4.addEntry p4.code = .ok true
    ∧ productsUsed e4 = some [p4]
    ∧ (pickLoop e4.detail "750" [p4]).1 = .ok (some (p4, d4))
    ∧ countAdd (runItem e4 "750").2 = 1
    ∧ hasRemove (runItem e4 "750").2 = false :=
  ⟨rfl, rfl, rfl, rfl, rfl⟩

/-- C4 amended: for every identifier whose product was added to the cart
AND whose remaining processing raises no exception, the entry-removal call
is the final step of the iteration; when an exception interrupts the body
after the add (as in `c4_counterexample`), no removal happens. -/
theorem c4_cleanup_no_exception (e : ItemEnv) (u : String) (h : addSucceeded e u)
    (h1 : ∀ msg, e.prices1 ≠ .error msg) (h2 : ∀ msg, e.prices2 ≠ .error msg) :
    ∃ t, (runItem e u).2 = t ++ [Step.remove] := by
  obtain ⟨ps, pd, dj, hps, hpick, hadd⟩ := h
  have hne := pickLoop_ne_nil e.detail u ps pd dj hpick
  obtain ⟨-, hb2⟩ := runItemBody_via_products e u ps hps hne
  have hAS := afterSearch_eq_afterPick e u ps pd dj hpick
  obtain ⟨t2, ht2⟩ :=
    afterPick_ends_remove e u pd dj (pickLoop e.detail u ps).2 hadd h1 h2
  rw [runItem_snd]
  rcases hb2 with hb | hb <;> rw [hb, hAS, ht2]
  · exact ⟨Step.search u :: t2, rfl⟩
  · exact ⟨Step.search u :: Step.search (freeTextQuery u) :: t2, rfl⟩

/-- Witness for the amended C4 at the concrete environment `e4w`, where the
add succeeds and no call raises. -/
theorem c4_witness :
    addSucceeded e4w "750" ∧ ∃ t, (runItem e4w "750").2 = t ++ [Step.remove] :=
  ⟨⟨[p4], p4, d4, rfl, rfl, rfl⟩,
   c4_cleanup_no_exception e4w "750" ⟨[p4], p4, d4, rfl, rfl, rfl⟩
     (fun msg hm => by simp [e4w] at hm) (fun msg hm => by simp [e4w] at hm)⟩

theorem searchQueries_search (q : String) (t : List Step) :
    searchQueries (Step.search q :: t) = q :: searchQueries t := rfl

theorem searchQueries_nil_of (t : List Step)
    (h : ∀ x ∈ t, isSearchStep x = false) : searchQueries t = [] := by
  induction t with
  | nil => rfl
  | cons x rest ih =>
    have hx := h x (List.mem_cons_self x rest)
    have hrest : ∀ y ∈ rest, isSearchStep y = false :=
      fun y hy => h y (List.mem_cons_of_mem x hy)
    cases x with
    | search q => simp [isSearchStep] at hx
    | detail c => exact ih hrest
    | addEntry c => exact ih hrest
    | getPrices => exact ih hrest
    | remove => exact ih hrest

theorem afterSearch_no_search (e : ItemEnv) (u : String) (ps : List Product) :
    ∀ x ∈ (afterSearch e u ps).2, isSearchStep x = false := by
  intro x hx
  have hpick : ∀ y ∈ (pickLoop e.detail u ps).2, isSearchStep y = false := fun y hy => by
    have := pickLoop_detail e.detail u ps y hy
    cases y <;> simp_all [isDetailStep, isSearchStep]
  simp only [afterSearch] at hx
  split at hx
  · exact hpick x hx
  · exact hpick x hx
  · rcases afterPick_trace e u _ _ (pickLoop e.detail u ps).2 with h | h | h | h | h <;>
      rw [h] at hx <;>
      rcases List.mem_append.mp hx with h2 | h2 <;>
      first
        | exact hpick x h2
        | (simp only [List.mem_cons, List.not_mem_nil, or_false] at h2
           rcases h2 with rfl | rfl | rfl | rfl <;> rfl)

/-- C6 as stated is false: the `No encontrado` record is not tied to the
fallback search returning no products.  At the concrete environment `e6`
the initial search is empty and the fallback returns a product, yet the
identifier is still recorded as `No encontrado` (because no candidate
matched at the detail stage). -/
theorem c6_counterexample :
    e6.search1 = .ok [] ∧ e6.search2 = .ok [p6]
    ∧ (runItem e6 "42").1 = ⟨"42", "-", "-", "No encontrado"⟩ :=
  ⟨rfl, rfl, rfl⟩

/-- C6 amended: when the initial search returns no products, exactly one
fallback search is attempted, with the query formed by putting
`":relevance:freeText:"` before the identifier; the SEARCH STAGE records
`No encontrado` exactly when the fallback also returns no products, and
with a nonempty fallback result processing continues with the later stages
(which may themselves still record `No encontrado` when no candidate
matches, as in `c6_counterexample`). -/
theorem c6_fallback_policy (e : ItemEnv) (u : String) (h : e.search1 = .ok []) :
    searchQueries (runItem e u).2 = [u, freeTextQuery u]
    ∧ (e.search2 = .ok [] → (runItem e u).1 = notFoundRow u)
    ∧ (∀ p ps, e.search2 = .ok (p :: ps) →
        (runItem e u).1 = afterSearchRow e u (p :: ps)) := by
  refine ⟨?_, ?_, ?_⟩
  · rw [runItem_snd]
    cases h2 : e.search2 with
    | error msg =>
      simp [runItemBody, h, h2, searchQueries]
    | ok ps2 =>
      by_cases hp2 : ps2.isEmpty
      · simp [runItemBody, h, h2, hp2, searchQueries]
      · have hp2f : ps2.isEmpty = false := by
          cases hq : ps2.isEmpty
          · rfl
          · exact absurd hq hp2
        simp only [runItemBody, h, h2, List.isEmpty_nil, if_true, hp2f,
          Bool.false_eq_true, if_false]
        rw [searchQueries_search, searchQueries_search,
          searchQueries_nil_of _ (afterSearch_no_search e u ps2)]
  · intro h2
    rw [runItem_fst]
    simp [runItemBody, h, h2]
  · intro p ps h2
    rcases hA : (afterSearch e u (p :: ps)).1 with msg | r <;>
      rw [runItem_fst] <;>
      simp [runItemBody, h, h2, hA, afterSearchRow, errRow]

/-- Witness for the amended C6 at the concrete environment `e6`: both
searches are issued (the second with the freeText query) and the run
continues past the search stage with the products of the fallback. -/
theorem c6_witness :
    searchQueries (runItem e6 "42").2 = ["42", freeTextQuery "42"]
    ∧ (runItem e6 "42").1 = afterSearchRow e6 "42" [p6] := by
  have h := c6_fallback_policy e6 "42" rfl
  exact ⟨h.1, h.2.2 p6 [] rfl⟩

theorem afterSearch_decomp (e : ItemEnv) (u : String) (ps : List Product) :
    ∃ d a p r, (afterSearch e u ps).2 = d ++ (a ++ (p ++ r))
      ∧ (∀ x ∈ d, isDetailStep x = true) ∧ (∀ x ∈ a, isAddStep x = true)
      ∧ (∀ x ∈ p, isPriceStep x = true) ∧ (∀ x ∈ r, isRemoveStep x = true)
      ∧ (a ≠ [] → ∃ pd dj, (pickLoop e.detail u ps).1 = .ok (some (pd, dj)))
      ∧ (p ≠ [] → ∃ pd dj, (pickLoop e.detail u ps).1 = .ok (some (pd, dj))
          ∧ e.addEntry pd.code = .ok true) := by
  have hd := pickLoop_detail e.detail u ps
  simp only [afterSearch]
  cases hpk : (pickLoop e.detail u ps).1 with
  | error msg =>
    exact ⟨(pickLoop e.detail u ps).2, [], [], [], by simp, hd, by simp, by simp,
      by simp, by simp, by simp⟩
  | ok o =>
    cases o with
    | none =>
      exact ⟨(pickLoop e.detail u ps).2, [], [], [], by simp, hd, by simp, by simp,
        by simp, by simp, by simp⟩
    | some pd =>
      have hpk2 : (Except.ok (some pd) : Except String (Option (Product × DetailJson)))
          = .ok (some (pd.1, pd.2)) := rfl
      simp only [afterPick]
      cases hadd : e.addEntry pd.1.code with
      | error msg =>
        refine ⟨(pickLoop e.detail u ps).2, [Step.addEntry pd.1.code], [], [],
          by simp, hd, ?_, by simp, by simp, fun _ => ⟨pd.1, pd.2, hpk2⟩, by simp⟩
        rintro x hx; simp at hx; subst hx; rfl
      | ok b =>
        cases b with
        | false =>
          refine ⟨(pickLoop e.detail u ps).2, [Step.addEntry pd.1.code], [], [],
            by simp, hd, ?_, by simp, by simp, fun _ => ⟨pd.1, pd.2, hpk2⟩, by simp⟩
          rintro x hx; simp at hx; subst hx; rfl
        | true =>
          cases hp1 : e.prices1 with
          | error msg =>
            refine ⟨(pickLoop e.detail u ps).2, [Step.addEntry pd.1.code],
              [Step.getPrices], [], by simp, hd, ?_, ?_, by simp,
              fun _ => ⟨pd.1, pd.2, hpk2⟩, fun _ => ⟨pd.1, pd.2, hpk2, hadd⟩⟩
            · rintro x hx; simp at hx; subst hx; rfl
            · rintro x hx; simp at hx; subst hx; rfl
          | ok o1 =>
            cases o1 with
            | some g =>
              refine ⟨(pickLoop e.detail u ps).2, [Step.addEntry pd.1.code],
                [Step.getPrices], [Step.remove], by simp, hd, ?_, ?_, ?_,
                fun _ => ⟨pd.1, pd.2, hpk2⟩, fun _ => ⟨pd.1, pd.2, hpk2, hadd⟩⟩
              · rintro x hx; simp at hx; subst hx; rfl
              · rintro x hx; simp at hx; subst hx; rfl
              · rintro x hx; simp at hx; subst hx; rfl
            | none =>
              cases hp2 : e.prices2 with
              | error msg =>
                refine ⟨(pickLoop e.detail u ps).2, [Step.addEntry pd.1.code],
                  [Step.getPrices, Step.getPrices], [], by simp, hd, ?_, ?_, by simp,
                  fun _ => ⟨pd.1, pd.2, hpk2⟩, fun _ => ⟨pd.1, pd.2, hpk2, hadd⟩⟩
                · rintro x hx; simp at hx; subst hx; rfl
                · rintro x hx; simp at hx; rcases hx with rfl | rfl <;> rfl
              | ok o2 =>
                cases o2 with
                | some g =>
                  refine ⟨(pickLoop e.detail u ps).2, [Step.addEntry pd.1.code],
                    [Step.getPrices, Step.getPrices], [Step.remove], by simp, hd,
                    ?_, ?_, ?_, fun _ => ⟨pd.1, pd.2, hpk2⟩,
                    fun _ => ⟨pd.1, pd.2, hpk2, hadd⟩⟩
                  · rintro x hx; simp at hx; subst hx; rfl
                  · rintro x hx; simp at hx; rcases hx with rfl | rfl <;> rfl
                  · rintro x hx; simp at hx; subst hx; rfl
                | none =>
                  refine ⟨(pickLoop e.detail u ps).2, [Step.addEntry pd.1.code],
                    [Step.getPrices, Step.getPrices], [Step.remove], by simp, hd,
                    ?_, ?_, ?_, fun _ => ⟨pd.1, pd.2, hpk2⟩,
                    fun _ => ⟨pd.1, pd.2, hpk2, hadd⟩⟩
                  · rintro x hx; simp at hx; subst hx; rfl
                  · rintro x hx; simp at hx; rcases hx with rfl | rfl <;> rfl
                  · rintro x hx; simp at hx; subst hx; rfl

/-- C2: for every identifier the trace of external calls follows the fixed
stage order — searches, then detail fetches, then the cart add, then the
price reads, then the cart cleanup; the add segment is nonempty only when
the match loop picked a candidate (the first one, in search order, whose
detail matches), and the price segment is nonempty only when the cart add
reported success for the picked product. -/
theorem c2_step_order (e : ItemEnv) (u : String) :
    ∃ s d a p r, (runItem e u).2 = s ++ (d ++ (a ++ (p ++ r)))
      ∧ (∀ x ∈ s, isSearchStep x = true) ∧ (∀ x ∈ d, isDetailStep x = true)
      ∧ (∀ x ∈ a, isAddStep x = true) ∧ (∀ x ∈ p, isPriceStep x = true)
      ∧ (∀ x ∈ r, isRemoveStep x = true)
      ∧ (a ≠ [] → ∃ ps pd dj pre post, productsUsed e = some ps
          ∧ (pickLoop e.detail u ps).1 = .ok (some (pd, dj))
          ∧ ps = pre ++ pd :: post
          ∧ (∀ q ∈ pre, ¬ productMatches e u q)
          ∧ productMatches e u pd)
      ∧ (p ≠ [] → ∃ ps pd dj, productsUsed e = some ps
          ∧ (pickLoop e.detail u ps).1 = .ok (some (pd, dj))
          ∧ e.addEntry pd.code = .ok true) := by
  rcases runItem_trace_cases e u with h | h | ⟨ps, hps, h⟩ | ⟨ps, hps, h⟩
  · refine ⟨[Step.search u], [], [], [], [], by simp [h], ?_, by simp, by simp,
      by simp, by simp, by simp, by simp⟩
    rintro x hx; simp at hx; subst hx; rfl
  · refine ⟨[Step.search u, Step.search (freeTextQuery u)], [], [], [], [],
      by simp [h], ?_, by simp, by simp, by simp, by simp, by simp, by simp⟩
    rintro x hx; simp at hx; rcases hx with rfl | rfl <;> rfl
  · obtain ⟨d, a, p, r, hdec, hdd, haa, hpp, hrr, hA, hP⟩ := afterSearch_decomp e u ps
    refine ⟨[Step.search u], d, a, p, r, by simp [h, hdec], ?_, hdd, haa, hpp, hrr,
      ?_, ?_⟩
    · rintro x hx; simp at hx; subst hx; rfl
    · intro hane
      obtain ⟨pd, dj, hpk⟩ := hA hane
      obtain ⟨pre, post, hsplit, hpre, hc, hdet, hm⟩ := pickLoop_first e.detail u ps pd dj hpk
      exact ⟨ps, pd, dj, pre, post, hps, hpk, hsplit, hpre, hc, dj, hdet, hm⟩
    · intro hpne
      obtain ⟨pd, dj, hpk, hadd⟩ := hP hpne
      exact ⟨ps, pd, dj, hps, hpk, hadd⟩
  · obtain ⟨d, a, p, r, hdec, hdd, haa, hpp, hrr, hA, hP⟩ := afterSearch_decomp e u ps
    refine ⟨[Step.search u, Step.search (freeTextQuery u)], d, a, p, r,
      by simp [h, hdec], ?_, hdd, haa, hpp, hrr, ?_, ?_⟩
    · rintro x hx; simp at hx; rcases hx with rfl | rfl <;> rfl
    · intro hane
      obtain ⟨pd, dj, hpk⟩ := hA hane
      obtain ⟨pre, post, hsplit, hpre, hc, hdet, hm⟩ := pickLoop_first e.detail u ps pd dj hpk
      exact ⟨ps, pd, dj, pre, post, hps, hpk, hsplit, hpre, hc, dj, hdet, hm⟩
    · intro hpne
      obtain ⟨pd, dj, hpk, hadd⟩ := hP hpne
      exact ⟨ps, pd, dj, hps, hpk, hadd⟩

end SanPablo
